import Mathlib

/-!
Verification of the feedforward neural network implemented in
`lib/neural-network.js` (repository `aliwalker/neural-network`).

The JavaScript source is shallowly embedded: every mutable object becomes a
record, every in-place mutation becomes a record update, machine floats are
modelled by exact reals, out-of-range array reads (which yield `undefined`
in JavaScript) are modelled by `List.getD`/`List.get?` with the stated
defaults, and a thrown `Error` becomes the `Except.error` constructor
carrying the message string.  Loops whose body writes `a[i] = e i` for every
index `i` below a bound are translated as rebuilding the written range with
`(List.range n).map`; loops whose body both reads and writes the same cell
(the interleaved weight update of `backward`) are translated as a `foldl`
over the index range carrying the mutated state, preserving the exact
statement order of the source.
-/

namespace NeuralNetJs

/-- Sigmoid activation, from the source function `sigmoid`:
`return 1.0 / (1.0 + Math.exp(-x))`. -/
noncomputable def sigmoid (x : ℝ) : ℝ := 1.0 / (1.0 + Real.exp (-x))

/-- Total error, from the source function `totalError`:
`for (let i in prediction) error += (actual[i] - prediction[i]) ** 2` and
finally `.5 * error`.  The `for...in` loop visits the indices of
`prediction`. -/
noncomputable def totalError (prediction actual : List ℝ) : ℝ :=
  0.5 * (((List.range prediction.length).map
    (fun i => (actual.getD i 0 - prediction.getD i 0) ^ 2)).sum)

/-- One layer object, as built by the source function `createLayer`:
`{ layerSize: layerSize, weights: [], output: [], bias: ... }`.  The
`deltas` property is absent until `backward` first assigns it; it is
modelled as an initially empty list. -/
structure Layer where
  layerSize : ℤ
  weights : List (List ℝ)
  output : List ℝ
  bias : ℝ
  deltas : List ℝ

/-- Empty placeholder layer, used as the default of `List.getD` on layer
lists (the JavaScript counterpart, an out-of-range index, would crash any
use, so claims always carry bounds putting it out of reach). -/
def emptyLayer : Layer :=
  { layerSize := 0, weights := [], output := [], bias := 0, deltas := [] }

/-- The whole network object assembled by the `NeuralNet` constructor.
The `totalError` property is absent until `learnSingle` first assigns it. -/
structure NeuralNet where
  inputLayer : Layer
  outputLayer : Layer
  hiddenLayers : List Layer
  learningRate : ℝ
  totalError : Option ℝ

/-- Source function `runInput(layer, prevLayer)`: for every
`i < layer.layerSize` it sets
`layer.output[i] = sigmoid(sum_j prevLayer.output[j] * prevLayer.weights[j][i] + prevLayer.bias)`
with `j` ranging below `prevLayer.output.length`.  The write covers indices
`0..layerSize-1`, so the output list is rebuilt from that range. -/
noncomputable def runInput (layer prevLayer : Layer) : Layer :=
  { layer with
    output := (List.range layer.layerSize.toNat).map (fun i =>
      sigmoid ((((List.range prevLayer.output.length).map (fun j =>
        prevLayer.output.getD j 0 * (prevLayer.weights.getD j []).getD i 0)).sum)
        + prevLayer.bias)) }

/-- The hidden-layer part of `NeuralNet.prototype.forward`:
`runInput(hiddenLayers[0], inputLayer)` followed by
`runInput(hiddenLayers[i], hiddenLayers[i-1])` for `i = 1 .. n-1`; each call
reads the layer updated by the previous call. -/
noncomputable def forwardHidden : Layer → List Layer → List Layer
  | _, [] => []
  | prev, h :: t =>
    let h2 := runInput h prev
    h2 :: forwardHidden h2 t

/-- Source method `NeuralNet.prototype.forward(input)`: assigns
`inputLayer.output = input`, runs the hidden layers in order, then
`runInput(outputLayer, hiddenLayers[hiddenLayersNum - 1])`.  When the hidden
list is empty the JavaScript code would crash on `hiddenLayers[-1]`; the
model falls back to the input layer, and every claim about `forward`
assumes at least one hidden layer where the distinction could matter. -/
noncomputable def NeuralNet.forward (net : NeuralNet) (input : List ℝ) : NeuralNet :=
  let il := { net.inputLayer with output := input }
  let hls := forwardHidden il net.hiddenLayers
  let lastH := hls.getLast?.getD il
  let ol := runInput net.outputLayer lastH
  { net with inputLayer := il, hiddenLayers := hls, outputLayer := ol }

/-- One iteration of the inner loop of `backward` on one weight row, with
the exact statement order of the source:
`error += deltas[j] * weights[i][j];`
`weights[i][j] -= this.learningRate * deltas[j] * output[i];`
The state is the pair (accumulated error, current weight row). -/
def backStep (lr a : ℝ) (d : List ℝ) (s : ℝ × List ℝ) (j : ℕ) : ℝ × List ℝ :=
  (s.1 + d.getD j 0 * s.2.getD j 0,
   s.2.set j (s.2.getD j 0 - lr * d.getD j 0 * a))

/-- The full inner `j`-loop of `backward` for one upstream neuron: `j` runs
over the indices of the downstream delta list, starting from error `0` and
the current weight row. -/
def backRow (lr a : ℝ) (d row : List ℝ) : ℝ × List ℝ :=
  (List.range d.length).foldl (backStep lr a d) (0, row)

/-- One per-layer phase of `backward` (the loop bodies for the last hidden
layer, the middle hidden layers and the input layer are textually
identical): for every `i` below `output.length` it runs the inner loop on
row `i`, stores the updated row back, and sets
`deltas[i] = error * output[i] * (1 - output[i])`.  Rows with index at or
above `output.length` are not visited. -/
def layerBackStep (lr : ℝ) (d : List ℝ) (layer : Layer) : Layer :=
  { layer with
    weights := (List.range layer.weights.length).map (fun i =>
      if i < layer.output.length then
        (backRow lr (layer.output.getD i 0) d (layer.weights.getD i [])).2
      else layer.weights.getD i []),
    deltas := (List.range layer.output.length).map (fun i =>
      (backRow lr (layer.output.getD i 0) d (layer.weights.getD i [])).1
        * layer.output.getD i 0 * (1 - layer.output.getD i 0)) }

/-- The first phase of `backward`: for every output neuron `i`,
`error = output[i] - target[i]` and
`deltas[i] = error * output[i] * (1 - output[i])`. -/
def outputLayerDeltas (output target : List ℝ) : List ℝ :=
  (List.range output.length).map (fun i =>
    (output.getD i 0 - target.getD i 0) * output.getD i 0 * (1 - output.getD i 0))

/-- The hidden-layer sweep of `backward`, processed from the last hidden
layer down to the first.  The parameter `dN` is the delta list of the
output layer: the recursion processes the tail first (so the last hidden
layer reads `dN`), and each earlier layer reads the freshly written delta
list of its immediate successor. -/
def backHidden (lr : ℝ) (dN : List ℝ) : List Layer → List Layer
  | [] => []
  | h :: t =>
    let t2 := backHidden lr dN t
    let d := match t2 with
      | [] => dN
      | h2 :: _ => h2.deltas
    layerBackStep lr d h :: t2

/-- Source method `NeuralNet.prototype.backward(target)`: writes the output
layer deltas, sweeps the hidden layers from last to first, then processes
the input layer against `hiddenLayers[0].deltas`.  With no hidden layers
the JavaScript code would crash; the model falls back to the output deltas
there, and claims assume at least one hidden layer. -/
def NeuralNet.backward (net : NeuralNet) (target : List ℝ) : NeuralNet :=
  let ol := { net.outputLayer with
    deltas := outputLayerDeltas net.outputLayer.output target }
  let hls := backHidden net.learningRate ol.deltas net.hiddenLayers
  let d0 := match hls with
    | [] => ol.deltas
    | h :: _ => h.deltas
  let il := layerBackStep net.learningRate d0 net.inputLayer
  { net with inputLayer := il, outputLayer := ol, hiddenLayers := hls }

/-- Source method `NeuralNet.prototype.predict(input)`: throws when
`input.length !== this.inputLayer.layerSize`, otherwise runs `forward` and
copies the output layer activations element by element into a fresh result
array.  The thrown message contains an apostrophe in the source; it is
elided here. -/
noncomputable def NeuralNet.predict (net : NeuralNet) (input : List ℝ) :
    Except String (NeuralNet × List ℝ) :=
  if (input.length : ℤ) ≠ net.inputLayer.layerSize then
    .error "Length of input array dose not match."
  else
    let net2 := net.forward input
    .ok (net2, net2.outputLayer.output)

/-- Source method `NeuralNet.prototype.learnSingle(input, output)`:
`this.totalError = totalError(this.predict(input), output)` followed by
`this.backward(output)`.  A throw inside `predict` aborts the call before
`totalError` is assigned and before any weight is touched. -/
noncomputable def NeuralNet.learnSingle (net : NeuralNet) (input output : List ℝ) :
    Except String NeuralNet :=
  match net.predict input with
  | .error e => .error e
  | .ok (net2, pred) =>
    .ok (NeuralNet.backward
      { net2 with totalError := some (NeuralNetJs.totalError pred output) } output)

/-- One training example, `{ input: [...], output: [...] }`. -/
structure Example where
  input : List ℝ
  output : List ℝ

/-- The inner loop of `NeuralNet.prototype.learn`: one pass over the train
data in order, calling `learnSingle` on each example. -/
noncomputable def learnPass (net : NeuralNet) : List Example → Except String NeuralNet
  | [] => .ok net
  | ex :: rest =>
    match net.learnSingle ex.input ex.output with
    | .error e => .error e
    | .ok n2 => learnPass n2 rest

/-- The outer loop of `learn`, counted down from the iteration bound. -/
noncomputable def learnIter (data : List Example) (net : NeuralNet) :
    ℕ → Except String NeuralNet
  | 0 => .ok net
  | n + 1 =>
    match learnPass net data with
    | .error e => .error e
    | .ok n2 => learnIter data n2 n

/-- Source method `NeuralNet.prototype.learn(train_data)`:
`for (let i = 0; i < 2000; i++) for (const example of train_data) this.learnSingle(example.input, example.output)`.
The bound `2000` is a literal in the source; no configuration value is
consulted. -/
noncomputable def NeuralNet.learn (net : NeuralNet) (train_data : List Example) :
    Except String NeuralNet :=
  learnIter train_data net 2000

/-- Instrumented variant of `learnPass` that also returns, in order, the
examples on which `learnSingle` was called.  The network evolution is
identical to `learnPass`. -/
noncomputable def learnPassT (net : NeuralNet) :
    List Example → Except String (NeuralNet × List Example)
  | [] => .ok (net, [])
  | ex :: rest =>
    match net.learnSingle ex.input ex.output with
    | .error e => .error e
    | .ok n2 =>
      match learnPassT n2 rest with
      | .error e => .error e
      | .ok (n3, tr) => .ok (n3, ex :: tr)

/-- Instrumented variant of `learnIter`, concatenating the call traces of
the successive passes. -/
noncomputable def learnT (data : List Example) (net : NeuralNet) :
    ℕ → Except String (NeuralNet × List Example)
  | 0 => .ok (net, [])
  | n + 1 =>
    match learnPassT net data with
    | .error e => .error e
    | .ok (n2, tr) =>
      match learnT data n2 n with
      | .error e => .error e
      | .ok (n3, tr2) => .ok (n3, tr ++ tr2)

/-- The value supplied for a hidden-layer size specification
(`option.hiddenLayers.size` or `option.hiddenLayerSize`): a JavaScript
number, an array, or any value of another type (the constructor only
distinguishes these three shapes). -/
inductive SizeSpec where
  | num (n : ℤ)
  | arr (l : List ℤ)
  | other

/-- Truthiness of a `SizeSpec` under the `||` fallbacks of the constructor:
a number is falsy exactly when it is `0`, an array is always truthy, and
`other` stands for a truthy non-number non-array value (an object or a
nonempty string). -/
def SizeSpec.truthy : SizeSpec → Bool
  | .num n => n ≠ 0
  | .arr _ => true
  | .other => true

/-- Test for the branch of the constructor that throws: the specification
is neither an array nor a number. -/
def SizeSpec.isOther : SizeSpec → Bool
  | .other => true
  | _ => false

/-- The nested `option.hiddenLayers` object. -/
structure HiddenLayersOpt where
  num : Option ℕ
  size : Option SizeSpec

/-- The constructor option object.  Field names follow the property names
the constructor actually reads (`hiddenLayers`, `hiddenLayerNum`,
`hiddenLayerSize`, `learningRate`, `bias`); `iterations` is part of the
documented option interface in the README but is never read by the
implementation. -/
structure NeuralNetOption where
  hiddenLayers : Option HiddenLayersOpt
  hiddenLayerNum : Option ℕ
  hiddenLayerSize : Option SizeSpec
  learningRate : Option ℝ
  bias : Option (List ℝ)
  iterations : Option ℕ

/-- Option object with every property absent, the `{}` of
`option = option || {}`. -/
def emptyOption : NeuralNetOption :=
  { hiddenLayers := none, hiddenLayerNum := none, hiddenLayerSize := none,
    learningRate := none, bias := none, iterations := none }

/-- JavaScript `a || dflt` for an optional natural number: an absent or
zero (falsy) value falls through to the default. -/
def jsOrNat (v : Option ℕ) (dflt : ℕ) : ℕ :=
  match v with
  | none => dflt
  | some n => if n = 0 then dflt else n

/-- JavaScript `a || dflt` for an optional size specification. -/
def jsOrSpec (v : Option SizeSpec) (dflt : SizeSpec) : SizeSpec :=
  match v with
  | none => dflt
  | some s => if s.truthy then s else dflt

/-- Resolution of `hls.num || option.hiddenLayerNum || 2` from the
constructor. -/
def resolveHiddenNum (option : Option NeuralNetOption) : ℕ :=
  let opt := option.getD emptyOption
  let hls := opt.hiddenLayers.getD { num := none, size := none }
  jsOrNat hls.num (jsOrNat opt.hiddenLayerNum 2)

/-- Resolution of
`hls.size || option.hiddenLayerSize || [inputSize, inputSize]` from the
constructor. -/
def resolveHiddenSize (option : Option NeuralNetOption) (inputSize : ℤ) : SizeSpec :=
  let opt := option.getD emptyOption
  let hls := opt.hiddenLayers.getD { num := none, size := none }
  jsOrSpec hls.size (jsOrSpec opt.hiddenLayerSize (.arr [inputSize, inputSize]))

/-- Source function `createLayer(layerSize, bias = 0, output = false)`:
builds `{ layerSize, weights: [], output: [], bias: bias == undefined ? 0 : bias }`.
A possibly-`undefined` bias argument is modelled as an `Option`; the
`output` flag is accepted and, as in the source body, never used. -/
def createLayer (layerSize : ℤ) (bias : Option ℝ) (_output : Bool) : Layer :=
  { layerSize := layerSize, weights := [], output := [], bias := bias.getD 0,
    deltas := [] }

/-- Source function `createRandomWeights(layer, nextLayerNum)`: for every
`i < layer.layerSize` it sets `weights[i]` to a fresh row of
`nextLayerNum` independent random draws.  The draws of `Math.random` are
modelled by a caller-supplied function of the position `(i, j)`; no claim
depends on the drawn values. -/
def createRandomWeights (rand : ℕ → ℕ → ℝ) (layer : Layer) (nextLayerNum : ℤ) : Layer :=
  { layer with
    weights := (List.range layer.layerSize.toNat).map (fun i =>
      (List.range nextLayerNum.toNat).map (fun j => rand i j)) }

/-- The `NeuralNet(inputSize, outputSize, option)` constructor.  The
supplied `rand` gives the random draw used for weight `(i, j)` of the
non-output layer with index `k` (index `0` is the input layer).  The
out-of-range read `hiddenLayersSize[i]` yields `undefined` in JavaScript;
it is modelled by `List.getD _ _ 0`, which agrees with the source on
everything the claims observe (in both cases the affected layer gets no
weight rows and construction still succeeds). -/
noncomputable def make (inputSize outputSize : ℤ) (option : Option NeuralNetOption)
    (rand : ℕ → ℕ → ℕ → ℝ) : Except String NeuralNet :=
  let opt := option.getD emptyOption
  let hiddenLayersNum := resolveHiddenNum option
  let hiddenLayersSize := resolveHiddenSize option inputSize
  let bias := opt.bias.getD []
  let inputLayer0 := createLayer inputSize (bias.get? 0) false
  let outputLayer := createLayer outputSize (some 0) true
  let learningRate : ℝ :=
    match opt.learningRate with
    | none => 0.5
    | some r => if r = 0 then 0.5 else r
  let mkNet := fun (hiddens : List Layer) =>
    let inputLayer := createRandomWeights (rand 0) inputLayer0
      ((hiddens.getD 0 emptyLayer).layerSize)
    let hiddens2 := (List.range hiddens.length).map (fun i =>
      createRandomWeights (rand (i + 1)) (hiddens.getD i emptyLayer)
        (if i ≠ hiddens.length - 1 then (hiddens.getD (i + 1) emptyLayer).layerSize
         else outputLayer.layerSize))
    ({ inputLayer := inputLayer, outputLayer := outputLayer,
       hiddenLayers := hiddens2, learningRate := learningRate,
       totalError := none } : NeuralNet)
  match hiddenLayersSize with
  | .arr l =>
    .ok (mkNet ((List.range hiddenLayersNum).map (fun i =>
      createLayer (l.getD i 0) (bias.get? i) false)))
  | .num n =>
    .ok (mkNet ((List.range hiddenLayersNum).map (fun i =>
      createLayer n (bias.get? i) false)))
  | .other => .error "option.hiddenLayers.size must be an array or number."

/-- A default network, used only to give `getNet` a total type. -/
def defaultNet : NeuralNet :=
  { inputLayer := emptyLayer, outputLayer := emptyLayer, hiddenLayers := [],
    learningRate := 0, totalError := none }

/-- Extraction of the network from a non-throwing call. -/
def getNet (e : Except String NeuralNet) : NeuralNet :=
  match e with
  | .ok n => n
  | .error _ => defaultNet

/-- All layers of a network in forward order. -/
def layersOf (net : NeuralNet) : List Layer :=
  net.inputLayer :: (net.hiddenLayers ++ [net.outputLayer])

/-- The non-output layers (the ones owning a weight matrix), in forward
order: the input layer followed by the hidden layers. -/
def nonOut (net : NeuralNet) : List Layer :=
  net.inputLayer :: net.hiddenLayers

/-- The layer downstream of the k-th non-output layer: position k in the
hidden layers followed by the output layer. -/
def nextOf (net : NeuralNet) : List Layer :=
  net.hiddenLayers ++ [net.outputLayer]

/-- Constant random source for concrete instances. -/
def r0 : ℕ → ℕ → ℕ → ℝ := fun _ _ _ => 0

/-- The network state produced by a non-throwing `learnSingle` call. -/
noncomputable def learnSingleOk (net : NeuralNet) (input target : List ℝ) : NeuralNet :=
  NeuralNet.backward
    { net.forward input with
      totalError := some (totalError ((net.forward input).outputLayer.output) target) }
    target

/-- Concrete well-shaped 1-1-1 network (input, one hidden, output, each of
one neuron) in a post-forward state, used to instantiate hypothesis-bearing
theorems at a concrete input. -/
def cNet : NeuralNet :=
  { inputLayer :=
      { layerSize := 1, weights := [[1]], output := [1], bias := 0, deltas := [] },
    hiddenLayers :=
      [{ layerSize := 1, weights := [[1]], output := [1], bias := 0, deltas := [] }],
    outputLayer :=
      { layerSize := 1, weights := [], output := [1], bias := 0, deltas := [] },
    learningRate := 1, totalError := none }

/-- Option object configuring `iterations` (and nothing else), used to
exhibit that the training loop ignores it. -/
def optIter : NeuralNetOption :=
  { hiddenLayers := none, hiddenLayerNum := none, hiddenLayerSize := none,
    learningRate := none, bias := none, iterations := some 5000 }

/-- Option object whose every supplied value is falsy: a learning rate of
`0`, a hidden-layer count of `0`, and an absent bias list. -/
def optFalsy : NeuralNetOption :=
  { hiddenLayers := some { num := some 0, size := none }, hiddenLayerNum := none,
    hiddenLayerSize := none, learningRate := some 0, bias := none,
    iterations := none }

/-! ### List index helpers -/

theorem getD_range_map {α : Type} (f : ℕ → α) (n k : ℕ) (d : α) :
    ((List.range n).map f).getD k d = if k < n then f k else d := by
  by_cases h : k < n
  · rw [List.getD_eq_getElem _ _ (by simpa using h)]
    simp [h]
  · rw [List.getD_eq_default _ _ (by simpa using Nat.le_of_not_lt h)]
    simp [h]

theorem sum_range_map_succ (f : ℕ → ℝ) (n : ℕ) :
    ((List.range (n + 1)).map f).sum = ((List.range n).map f).sum + f n := by
  rw [List.range_succ]
  simp

/-! ### The interleaved inner loop of `backward` -/

theorem backRow_loop (lr a : ℝ) (d : List ℝ) :
    ∀ (n : ℕ) (e : ℝ) (row : List ℝ),
      (((List.range n).foldl (backStep lr a d) (e, row)).1
          = e + ((List.range n).map (fun j => d.getD j 0 * row.getD j 0)).sum)
      ∧ (((List.range n).foldl (backStep lr a d) (e, row)).2.length = row.length)
      ∧ (∀ k, ((List.range n).foldl (backStep lr a d) (e, row)).2[k]?
          = (row[k]?).map (fun w => if k < n then w - lr * d.getD k 0 * a else w)) := by
  intro n
  induction n with
  | zero =>
    intro e row
    refine ⟨by simp, by simp, fun k => ?_⟩
    cases h : row[k]? <;> simp [h]
  | succ n ih =>
    intro e row
    obtain ⟨ih1, ih2, ih3⟩ := ih e row
    rw [List.range_succ, List.foldl_append]
    set P := (List.range n).foldl (backStep lr a d) (e, row) with hP
    have hPn : P.2.getD n 0 = row.getD n 0 := by
      rw [List.getD_eq_getElem?_getD, List.getD_eq_getElem?_getD, ih3]
      cases row[n]? <;> simp
    refine ⟨?_, ?_, ?_⟩
    · simp only [List.foldl_cons, List.foldl_nil, backStep, hPn, ih1,
        List.map_append, List.sum_append, List.map_cons, List.map_nil,
        List.sum_cons, List.sum_nil]
      ring
    · simp only [List.foldl_cons, List.foldl_nil, backStep, List.length_set, ih2]
    · intro k
      simp only [List.foldl_cons, List.foldl_nil, backStep]
      by_cases hk : k = n
      · subst hk
        rw [List.getElem?_set_self', ih3, hPn]
        cases hrk : row[k]? with
        | none => simp
        | some w =>
          have hg : row.getD k 0 = w := by
            rw [List.getD_eq_getElem?_getD, hrk]
            rfl
          simp only [Option.map_some', Option.map_map, Function.comp]
          rw [if_neg (Nat.lt_irrefl k), if_pos (Nat.lt_succ_self k)]
          simp [Function.const, hg, hrk]
      · rw [List.getElem?_set_ne (fun h => hk h.symm), ih3]
        refine Option.map_congr (fun w _ => ?_)
        by_cases hkn : k < n
        · rw [if_pos hkn, if_pos (Nat.lt_succ_of_lt hkn)]
        · rw [if_neg hkn, if_neg (by omega)]

theorem backRow_fst (lr a : ℝ) (d row : List ℝ) :
    (backRow lr a d row).1
      = ((List.range d.length).map (fun j => d.getD j 0 * row.getD j 0)).sum := by
  have h := (backRow_loop lr a d d.length 0 row).1
  simpa [backRow] using h

theorem backRow_length (lr a : ℝ) (d row : List ℝ) :
    (backRow lr a d row).2.length = row.length :=
  (backRow_loop lr a d d.length 0 row).2.1

theorem backRow_getD (lr a : ℝ) (d row : List ℝ) (k : ℕ)
    (hk : k < row.length) (hkd : k < d.length) :
    (backRow lr a d row).2.getD k 0 = row.getD k 0 - lr * d.getD k 0 * a := by
  have h := (backRow_loop lr a d d.length 0 row).2.2 k
  rw [backRow, List.getD_eq_getElem?_getD, h, List.getElem?_eq_getElem hk]
  simp only [Option.map_some', Option.getD_some, if_pos hkd,
    List.getD_eq_getElem _ _ hk]

/-! ### Per-layer and per-network backward lemmas -/

theorem layerBackStep_deltas_getD (lr : ℝ) (d : List ℝ) (layer : Layer) (i : ℕ)
    (hi : i < layer.output.length) :
    (layerBackStep lr d layer).deltas.getD i 0
      = ((List.range d.length).map (fun j =>
          d.getD j 0 * (layer.weights.getD i []).getD j 0)).sum
        * layer.output.getD i 0 * (1 - layer.output.getD i 0) := by
  simp only [layerBackStep, getD_range_map, if_pos hi, backRow_fst]

theorem layerBackStep_weights_getD (lr : ℝ) (d : List ℝ) (layer : Layer) (i j : ℕ)
    (hiw : i < layer.weights.length) (hio : i < layer.output.length)
    (hjr : j < (layer.weights.getD i []).length) (hjd : j < d.length) :
    ((layerBackStep lr d layer).weights.getD i []).getD j 0
      = (layer.weights.getD i []).getD j 0
        - lr * d.getD j 0 * layer.output.getD i 0 := by
  simp only [layerBackStep, getD_range_map, if_pos hiw, if_pos hio]
  exact backRow_getD lr (layer.output.getD i 0) d (layer.weights.getD i []) j hjr hjd

theorem backHidden_length (lr : ℝ) (dN : List ℝ) (t : List Layer) :
    (backHidden lr dN t).length = t.length := by
  induction t with
  | nil => rfl
  | cons h tl ih => simp [backHidden, ih]

theorem backHidden_getD (lr : ℝ) (dN : List ℝ) :
    ∀ (t : List Layer) (k : ℕ), k < t.length →
      (backHidden lr dN t).getD k emptyLayer
        = layerBackStep lr
            (if k + 1 < t.length
             then ((backHidden lr dN t).getD (k + 1) emptyLayer).deltas
             else dN)
            (t.getD k emptyLayer) := by
  intro t
  induction t with
  | nil => intro k hk; simp at hk
  | cons h tl ih =>
    intro k hk
    cases k with
    | zero =>
      cases tl with
      | nil => simp [backHidden]
      | cons x xs =>
        simp only [backHidden, List.getD_cons_zero, List.getD_cons_succ]
        rw [if_pos (by simp)]
    | succ m =>
      have hm : m < tl.length := by simpa using hk
      simp only [backHidden, List.getD_cons_succ]
      rw [ih m hm]
      by_cases hlt : m + 1 < tl.length
      · rw [if_pos hlt, if_pos (by simpa using Nat.succ_lt_succ hlt)]
      · rw [if_neg hlt, if_neg (by simpa using fun h2 => hlt (Nat.lt_of_succ_lt_succ h2))]

theorem backward_layer_eq (net : NeuralNet) (target : List ℝ) (k : ℕ)
    (hn : net.hiddenLayers ≠ []) (hk : k < (nonOut net).length) :
    (nonOut (net.backward target)).getD k emptyLayer
      = layerBackStep net.learningRate
          (((nextOf (net.backward target)).getD k emptyLayer).deltas)
          ((nonOut net).getD k emptyLayer) := by
  obtain ⟨h0, tl, htl⟩ : ∃ h0 tl, net.hiddenLayers = h0 :: tl :=
    List.exists_cons_of_ne_nil hn
  cases k with
  | zero =>
    simp only [NeuralNet.backward, nonOut, nextOf, List.getD_cons_zero, htl,
      backHidden]
    rfl
  | succ m =>
    have hA := backHidden_length net.learningRate
      (outputLayerDeltas net.outputLayer.output target) net.hiddenLayers
    have hm : m < net.hiddenLayers.length := by
      simp only [nonOut, List.length_cons] at hk
      omega
    simp only [NeuralNet.backward, nonOut, nextOf, List.getD_cons_succ]
    rw [backHidden_getD _ _ _ m hm]
    by_cases hlt : m + 1 < net.hiddenLayers.length
    · rw [if_pos hlt, List.getD_append _ _ _ _ (by rw [hA]; exact hlt)]
    · rw [if_neg hlt, List.getD_append_right _ _ _ _ (by rw [hA]; omega)]
      rw [hA]
      have hm1 : m + 1 - net.hiddenLayers.length = 0 := by omega
      rw [hm1, List.getD_cons_zero]

/-! ### Forward-pass lemmas -/

theorem runInput_output_length (layer prev : Layer) :
    (runInput layer prev).output.length = layer.layerSize.toNat := by
  simp [runInput]

theorem runInput_output_getD (layer prev : Layer) (j : ℕ)
    (hj : j < (runInput layer prev).output.length) :
    (runInput layer prev).output.getD j 0
      = sigmoid (((List.range prev.output.length).map (fun i =>
          prev.output.getD i 0 * (prev.weights.getD i []).getD j 0)).sum
        + prev.bias) := by
  rw [runInput_output_length] at hj
  simp only [runInput, getD_range_map, if_pos hj]

theorem forwardHidden_length (prev : Layer) (t : List Layer) :
    (forwardHidden prev t).length = t.length := by
  induction t generalizing prev with
  | nil => rfl
  | cons h tl ih => simp [forwardHidden, ih]

theorem forwardHidden_getD :
    ∀ (t : List Layer) (prev : Layer) (k : ℕ), k < t.length →
      (forwardHidden prev t).getD k emptyLayer
        = runInput (t.getD k emptyLayer)
            (if k = 0 then prev
             else (forwardHidden prev t).getD (k - 1) emptyLayer) := by
  intro t
  induction t with
  | nil => intro prev k hk; simp at hk
  | cons h tl ih =>
    intro prev k hk
    cases k with
    | zero => simp [forwardHidden]
    | succ m =>
      have hm : m < tl.length := by simpa using hk
      simp only [forwardHidden, List.getD_cons_succ, Nat.succ_sub_one]
      rw [ih (runInput h prev) m hm]
      cases m with
      | zero => simp
      | succ m2 => simp

theorem forward_inputLayer (net : NeuralNet) (input : List ℝ) :
    (net.forward input).inputLayer = { net.inputLayer with output := input } := rfl

theorem forward_hiddenLayers (net : NeuralNet) (input : List ℝ) :
    (net.forward input).hiddenLayers
      = forwardHidden { net.inputLayer with output := input } net.hiddenLayers := rfl

theorem forward_outputLayer (net : NeuralNet) (input : List ℝ) :
    (net.forward input).outputLayer
      = runInput net.outputLayer
          ((forwardHidden { net.inputLayer with output := input }
              net.hiddenLayers).getLast?.getD
            { net.inputLayer with output := input }) := rfl

theorem getLast?_getD_eq_getD {α : Type} (l : List α) (d1 d2 : α) (k : ℕ)
    (hk : l.length = k + 1) :
    l.getLast?.getD d1 = l.getD k d2 := by
  have hkl : k < l.length := by omega
  rw [List.getLast?_eq_getElem?, hk, Nat.succ_sub_one,
    List.getElem?_eq_getElem hkl, List.getD_eq_getElem _ _ hkl]
  simp

theorem forward_layer_eq (net : NeuralNet) (input : List ℝ) (m : ℕ)
    (hn : net.hiddenLayers ≠ []) (hm1 : 1 ≤ m)
    (hm : m < (layersOf (net.forward input)).length) :
    (layersOf (net.forward input)).getD m emptyLayer
      = runInput ((layersOf net).getD m emptyLayer)
          ((layersOf (net.forward input)).getD (m - 1) emptyLayer) := by
  have hmlen : m < net.hiddenLayers.length + 2 := by
    simp only [layersOf, forward_hiddenLayers, List.length_cons,
      List.length_append, List.length_nil, forwardHidden_length] at hm
    omega
  obtain ⟨m2, rfl⟩ : ∃ m2, m = m2 + 1 := ⟨m - 1, by omega⟩
  simp only [layersOf, forward_inputLayer, forward_hiddenLayers,
    forward_outputLayer, List.getD_cons_succ, Nat.succ_sub_one]
  by_cases hml : m2 < net.hiddenLayers.length
  · rw [List.getD_append _ _ _ _ (by rw [forwardHidden_length]; exact hml),
      List.getD_append _ _ _ _ hml,
      forwardHidden_getD net.hiddenLayers _ m2 hml]
    congr 1
    cases m2 with
    | zero => rw [if_pos rfl, List.getD_cons_zero]
    | succ k =>
      rw [if_neg (Nat.succ_ne_zero k), List.getD_cons_succ, Nat.succ_sub_one,
        List.getD_append _ _ _ _ (by rw [forwardHidden_length]; omega)]
  · have hm2 : m2 = net.hiddenLayers.length := by omega
    have hne : net.hiddenLayers.length ≠ 0 := by
      intro h0
      exact hn (List.eq_nil_of_length_eq_zero h0)
    rw [List.getD_append_right _ _ _ _ (by rw [forwardHidden_length]; omega),
      List.getD_append_right _ _ _ _ (by omega)]
    rw [forwardHidden_length, hm2, Nat.sub_self, List.getD_cons_zero,
      List.getD_cons_zero]
    congr 1
    obtain ⟨k, hk⟩ : ∃ k, net.hiddenLayers.length = k + 1 :=
      ⟨net.hiddenLayers.length - 1, by omega⟩
    rw [hk, List.getD_cons_succ,
      List.getD_append _ _ _ _ (by rw [forwardHidden_length]; omega)]
    exact getLast?_getD_eq_getD _ _ _ k (by rw [forwardHidden_length, hk])

/-! ### Frame lemmas: what `forward` and `backward` leave unchanged -/

theorem forwardHidden_map_frame {α : Type} (f : Layer → α)
    (hf : ∀ layer prev, f (runInput layer prev) = f layer) :
    ∀ (t : List Layer) (prev : Layer), (forwardHidden prev t).map f = t.map f := by
  intro t
  induction t with
  | nil => intro prev; rfl
  | cons h tl ih =>
    intro prev
    simp [forwardHidden, hf, ih]

theorem sigmoid_pos (x : ℝ) : 0 < sigmoid x := by
  rw [sigmoid]
  positivity

theorem sigmoid_lt_one (x : ℝ) : sigmoid x < 1 := by
  rw [sigmoid, div_lt_one (by positivity)]
  norm_num [Real.exp_pos]

/-! ### Shared equations for `predict`, `learnSingle` and the training loop -/

theorem predict_ok (net : NeuralNet) (input : List ℝ)
    (hin : (input.length : ℤ) = net.inputLayer.layerSize) :
    net.predict input
      = .ok (net.forward input, (net.forward input).outputLayer.output) := by
  rw [NeuralNet.predict, if_neg (fun hcon => hcon hin)]

theorem predict_error (net : NeuralNet) (input : List ℝ)
    (hin : (input.length : ℤ) ≠ net.inputLayer.layerSize) :
    net.predict input = .error "Length of input array dose not match." := by
  rw [NeuralNet.predict, if_pos hin]

theorem learnSingle_eq (net : NeuralNet) (input target : List ℝ)
    (hin : (input.length : ℤ) = net.inputLayer.layerSize) :
    net.learnSingle input target = .ok (learnSingleOk net input target) := by
  rw [NeuralNet.learnSingle, predict_ok net input hin]
  rfl

theorem backward_inputLayer_layerSize (net : NeuralNet) (target : List ℝ) :
    (net.backward target).inputLayer.layerSize = net.inputLayer.layerSize := rfl

theorem backward_totalError (net : NeuralNet) (target : List ℝ) :
    (net.backward target).totalError = net.totalError := rfl

theorem learnSingleOk_inputLayer_layerSize (net : NeuralNet) (input target : List ℝ) :
    (learnSingleOk net input target).inputLayer.layerSize
      = net.inputLayer.layerSize := rfl

theorem learnPassT_ok :
    ∀ (data : List Example) (net : NeuralNet) (S : ℤ),
      net.inputLayer.layerSize = S →
      (∀ ex ∈ data, (ex.input.length : ℤ) = S) →
      ∃ n2, learnPassT net data = .ok (n2, data)
        ∧ learnPass net data = .ok n2
        ∧ n2.inputLayer.layerSize = S := by
  intro data
  induction data with
  | nil => intro net S hS _; exact ⟨net, rfl, rfl, hS⟩
  | cons ex rest ih =>
    intro net S hS hdim
    have hex : (ex.input.length : ℤ) = net.inputLayer.layerSize := by
      rw [hS]
      exact hdim ex (List.mem_cons_self ex rest)
    have hstep := learnSingle_eq net ex.input ex.output hex
    obtain ⟨n2, h1, h2, h3⟩ := ih (learnSingleOk net ex.input ex.output) S
      (by rw [learnSingleOk_inputLayer_layerSize, hS])
      (fun e he => hdim e (List.mem_cons_of_mem ex he))
    refine ⟨n2, ?_, ?_, h3⟩
    · rw [learnPassT, hstep]
      dsimp only
      rw [h1]
    · rw [learnPass, hstep]
      dsimp only
      rw [h2]

theorem learnT_ok (data : List Example) (S : ℤ)
    (hdim : ∀ ex ∈ data, (ex.input.length : ℤ) = S) :
    ∀ (n : ℕ) (net : NeuralNet), net.inputLayer.layerSize = S →
      ∃ n2, learnT data net n = .ok (n2, (List.replicate n data).flatten)
        ∧ learnIter data net n = .ok n2
        ∧ n2.inputLayer.layerSize = S := by
  intro n
  induction n with
  | zero => intro net hS; exact ⟨net, rfl, rfl, hS⟩
  | succ n ih =>
    intro net hS
    obtain ⟨np, hp1, hp2, hp3⟩ := learnPassT_ok data net S hS hdim
    obtain ⟨n2, h1, h2, h3⟩ := ih np hp3
    refine ⟨n2, ?_, ?_, h3⟩
    · rw [learnT, hp1]
      dsimp only
      rw [h1, List.replicate_succ, List.flatten_cons]
    · rw [learnIter, hp2]
      dsimp only
      rw [h2]

/-! ### Constructor lemmas -/

theorem make_sizes (iS oS : ℤ) (opt : Option NeuralNetOption)
    (rand : ℕ → ℕ → ℕ → ℝ) (net : NeuralNet)
    (h : make iS oS opt rand = .ok net) :
    net.inputLayer.layerSize = iS ∧ net.outputLayer.layerSize = oS := by
  cases hspec : resolveHiddenSize opt iS with
  | num n =>
    rw [make, hspec] at h
    cases h
    exact ⟨rfl, rfl⟩
  | arr l =>
    rw [make, hspec] at h
    cases h
    exact ⟨rfl, rfl⟩
  | other =>
    rw [make, hspec] at h
    cases h

/-! ### Claim theorems -/

/-- Claim C1: in the backward sweep, for every non-output layer (position
`k` in `nonOut`, the input layer being `k = 0`), the delta written for
neuron `i` equals the sum over downstream neurons `j` of
`deltaNext[j] * weight[i][j]` — taken over the pre-update weights of this
sweep and the already-finalized deltas of the next layer in the result —
multiplied by `activation[i] * (1 - activation[i])`; and every visited
weight is updated to
`weight[i][j] - learningRate * deltaNext[j] * activation[i]`.  The
interleaved loop therefore never lets a delta read a partially-updated
weight. -/
theorem backward_finalized_deltas_and_weight_update
    (net : NeuralNet) (target : List ℝ) (k i j : ℕ)
    (hn : net.hiddenLayers ≠ [])
    (hk : k < (nonOut net).length)
    (hi : i < ((nonOut net).getD k emptyLayer).output.length)
    (hiw : i < ((nonOut net).getD k emptyLayer).weights.length)
    (hj : j < (((nextOf (net.backward target)).getD k emptyLayer).deltas).length)
    (hjr : j < (((nonOut net).getD k emptyLayer).weights.getD i []).length) :
    ((nonOut (net.backward target)).getD k emptyLayer).deltas.getD i 0
      = ((List.range
            ((((nextOf (net.backward target)).getD k emptyLayer).deltas).length)).map
          (fun j2 =>
            (((nextOf (net.backward target)).getD k emptyLayer).deltas).getD j2 0
              * (((nonOut net).getD k emptyLayer).weights.getD i []).getD j2 0)).sum
        * ((nonOut net).getD k emptyLayer).output.getD i 0
        * (1 - ((nonOut net).getD k emptyLayer).output.getD i 0)
    ∧ (((nonOut (net.backward target)).getD k emptyLayer).weights.getD i []).getD j 0
      = (((nonOut net).getD k emptyLayer).weights.getD i []).getD j 0
        - net.learningRate
          * (((nextOf (net.backward target)).getD k emptyLayer).deltas).getD j 0
          * ((nonOut net).getD k emptyLayer).output.getD i 0 := by
  rw [backward_layer_eq net target k hn hk]
  constructor
  · exact layerBackStep_deltas_getD _ _ _ i hi
  · exact layerBackStep_weights_getD _ _ _ i j hiw hi hjr hj

/-- Witness for C1 at the concrete network `cNet`, layer `k = 0`, neuron
`i = 0`, weight `j = 0` and target `[0]`. -/
theorem backward_finalized_deltas_and_weight_update_witness :
    cNet.hiddenLayers ≠ []
    ∧ 0 < (nonOut cNet).length
    ∧ 0 < ((nonOut cNet).getD 0 emptyLayer).output.length
    ∧ 0 < ((nonOut cNet).getD 0 emptyLayer).weights.length
    ∧ 0 < (((nextOf (cNet.backward [0])).getD 0 emptyLayer).deltas).length
    ∧ 0 < (((nonOut cNet).getD 0 emptyLayer).weights.getD 0 []).length
    ∧ (((nonOut (cNet.backward [0])).getD 0 emptyLayer).deltas.getD 0 0
        = ((List.range
              ((((nextOf (cNet.backward [0])).getD 0 emptyLayer).deltas).length)).map
            (fun j2 =>
              (((nextOf (cNet.backward [0])).getD 0 emptyLayer).deltas).getD j2 0
                * (((nonOut cNet).getD 0 emptyLayer).weights.getD 0 []).getD j2 0)).sum
          * ((nonOut cNet).getD 0 emptyLayer).output.getD 0 0
          * (1 - ((nonOut cNet).getD 0 emptyLayer).output.getD 0 0)
      ∧ (((nonOut (cNet.backward [0])).getD 0 emptyLayer).weights.getD 0 []).getD 0 0
        = (((nonOut cNet).getD 0 emptyLayer).weights.getD 0 []).getD 0 0
          - cNet.learningRate
            * (((nextOf (cNet.backward [0])).getD 0 emptyLayer).deltas).getD 0 0
            * ((nonOut cNet).getD 0 emptyLayer).output.getD 0 0) := by
  have hn : cNet.hiddenLayers ≠ [] := by simp [cNet]
  have hk : 0 < (nonOut cNet).length := by decide
  have hi : 0 < ((nonOut cNet).getD 0 emptyLayer).output.length := by decide
  have hiw : 0 < ((nonOut cNet).getD 0 emptyLayer).weights.length := by decide
  have hj : 0 < (((nextOf (cNet.backward [0])).getD 0 emptyLayer).deltas).length := by
    decide
  have hjr : 0 < (((nonOut cNet).getD 0 emptyLayer).weights.getD 0 []).length := by
    decide
  exact ⟨hn, hk, hi, hiw, hj, hjr,
    backward_finalized_deltas_and_weight_update cNet [0] 0 0 0 hn hk hi hiw hj hjr⟩

/-- Claim C2: a `learnSingle` call with valid dimensions first runs the
forward pass, then stores
`totalError = 0.5 * sum_k (target[k] - output[k])^2` computed from the
forward-pass outputs, and the output-layer deltas of the result are
`(output[k] - target[k]) * output[k] * (1 - output[k])` in terms of those
same forward-pass outputs — so both are fixed before any backward weight
update can interfere. -/
theorem learnSingle_total_error_and_output_deltas
    (net : NeuralNet) (input target : List ℝ)
    (hin : (input.length : ℤ) = net.inputLayer.layerSize)
    (htg : (target.length : ℤ) = net.outputLayer.layerSize) :
    net.learnSingle input target
      = .ok (NeuralNet.backward
          { net.forward input with
            totalError :=
              some (totalError ((net.forward input).outputLayer.output) target) }
          target)
    ∧ (getNet (net.learnSingle input target)).totalError
      = some (0.5 * ((List.range
            ((net.forward input).outputLayer.output.length)).map
          (fun k => (target.getD k 0
            - ((net.forward input).outputLayer.output).getD k 0) ^ 2)).sum)
    ∧ ∀ k, k < (net.forward input).outputLayer.output.length →
        (getNet (net.learnSingle input target)).outputLayer.deltas.getD k 0
          = (((net.forward input).outputLayer.output).getD k 0 - target.getD k 0)
            * ((net.forward input).outputLayer.output).getD k 0
            * (1 - ((net.forward input).outputLayer.output).getD k 0) := by
  have heq := learnSingle_eq net input target hin
  refine ⟨heq, ?_, ?_⟩
  · rw [heq]
    show (learnSingleOk net input target).totalError = _
    rw [learnSingleOk, backward_totalError]
    rfl
  · intro k hk
    rw [heq]
    show (learnSingleOk net input target).outputLayer.deltas.getD k 0 = _
    rw [learnSingleOk]
    show (outputLayerDeltas ((net.forward input).outputLayer.output) target).getD k 0
      = _
    rw [outputLayerDeltas, getD_range_map, if_pos hk]

/-- Witness for C2 at the concrete network `cNet` with input `[1]` and
target `[0]`. -/
theorem learnSingle_total_error_and_output_deltas_witness :
    (([1] : List ℝ).length : ℤ) = cNet.inputLayer.layerSize
    ∧ (([0] : List ℝ).length : ℤ) = cNet.outputLayer.layerSize
    ∧ (cNet.learnSingle [1] [0]
        = .ok (NeuralNet.backward
            { cNet.forward [1] with
              totalError :=
                some (totalError ((cNet.forward [1]).outputLayer.output) [0]) }
            [0])
      ∧ (getNet (cNet.learnSingle [1] [0])).totalError
        = some (0.5 * ((List.range
              ((cNet.forward [1]).outputLayer.output.length)).map
            (fun k => (([0] : List ℝ).getD k 0
              - ((cNet.forward [1]).outputLayer.output).getD k 0) ^ 2)).sum)
      ∧ ∀ k, k < (cNet.forward [1]).outputLayer.output.length →
          (getNet (cNet.learnSingle [1] [0])).outputLayer.deltas.getD k 0
            = (((cNet.forward [1]).outputLayer.output).getD k 0
                - ([0] : List ℝ).getD k 0)
              * ((cNet.forward [1]).outputLayer.output).getD k 0
              * (1 - ((cNet.forward [1]).outputLayer.output).getD k 0)) := by
  have hin : (([1] : List ℝ).length : ℤ) = cNet.inputLayer.layerSize := by decide
  have htg : (([0] : List ℝ).length : ℤ) = cNet.outputLayer.layerSize := by decide
  exact ⟨hin, htg,
    learnSingle_total_error_and_output_deltas cNet [1] [0] hin htg⟩

/-- Claim C3: after a forward pass, every layer from the first hidden layer
to the output layer (position `m ≥ 1` in `layersOf`) has
`activation[j] = sigmoid(sum_i prev.activation[i] * prev.weights[i][j] + prev.bias)`
where `prev` is the previous layer in the same updated layer sequence — in
particular the bias added is the previous layer bias, and the output layer
(the last position) reads the last hidden layer; and
`sigmoid(x) = 1 / (1 + exp(-x))`. -/
theorem forward_weighted_sum_sigmoid
    (net : NeuralNet) (input : List ℝ) (m j : ℕ)
    (hn : net.hiddenLayers ≠ [])
    (hm1 : 1 ≤ m)
    (hm : m < (layersOf (net.forward input)).length)
    (hj : j < ((layersOf (net.forward input)).getD m emptyLayer).output.length) :
    (∀ x, sigmoid x = 1 / (1 + Real.exp (-x)))
    ∧ ((layersOf (net.forward input)).getD m emptyLayer).output.getD j 0
      = sigmoid
          (((List.range
              (((layersOf (net.forward input)).getD (m - 1) emptyLayer).output.length)).map
            (fun i =>
              ((layersOf (net.forward input)).getD (m - 1) emptyLayer).output.getD i 0
                * (((layersOf (net.forward input)).getD (m - 1) emptyLayer).weights.getD
                    i []).getD j 0)).sum
          + ((layersOf (net.forward input)).getD (m - 1) emptyLayer).bias) := by
  refine ⟨fun x => by norm_num [sigmoid], ?_⟩
  rw [forward_layer_eq net input m hn hm1 hm] at hj ⊢
  exact runInput_output_getD _ _ j hj

/-- Witness for C3 at the concrete network `cNet`, input `[1]`, layer
`m = 1`, neuron `j = 0`. -/
theorem forward_weighted_sum_sigmoid_witness :
    cNet.hiddenLayers ≠ []
    ∧ 1 ≤ 1
    ∧ 1 < (layersOf (cNet.forward [1])).length
    ∧ 0 < ((layersOf (cNet.forward [1])).getD 1 emptyLayer).output.length
    ∧ ((∀ x, sigmoid x = 1 / (1 + Real.exp (-x)))
      ∧ ((layersOf (cNet.forward [1])).getD 1 emptyLayer).output.getD 0 0
        = sigmoid
            (((List.range
                (((layersOf (cNet.forward [1])).getD 0 emptyLayer).output.length)).map
              (fun i =>
                ((layersOf (cNet.forward [1])).getD 0 emptyLayer).output.getD i 0
                  * (((layersOf (cNet.forward [1])).getD 0 emptyLayer).weights.getD
                      i []).getD 0 0)).sum
            + ((layersOf (cNet.forward [1])).getD 0 emptyLayer).bias)) := by
  have hn : cNet.hiddenLayers ≠ [] := by simp [cNet]
  have hm1 : 1 ≤ 1 := le_refl 1
  have hm : 1 < (layersOf (cNet.forward [1])).length := by
    simp [layersOf, forward_hiddenLayers, forwardHidden_length]
  have hj : 0 < ((layersOf (cNet.forward [1])).getD 1 emptyLayer).output.length := by
    rw [forward_layer_eq cNet [1] 1 hn hm1 hm, runInput_output_length]
    decide
  exact ⟨hn, hm1, hm, hj, forward_weighted_sum_sigmoid cNet [1] 1 0 hn hm1 hm hj⟩

/-- Claim C9: a valid `predict` call succeeds, returns exactly the output
layer activation vector of the forward state (copied element by element in
the source, hence a value independent of later mutation), and changes
nothing besides the activation caches: every weight matrix, every bias,
every layer size, the cached deltas, the learning rate and the stored
total error are those of the original network. -/
theorem predict_output_copy_and_frame
    (net : NeuralNet) (input : List ℝ)
    (hin : (input.length : ℤ) = net.inputLayer.layerSize) :
    net.predict input
      = .ok (net.forward input, (net.forward input).outputLayer.output)
    ∧ (net.forward input).learningRate = net.learningRate
    ∧ (net.forward input).totalError = net.totalError
    ∧ (net.forward input).inputLayer.weights = net.inputLayer.weights
    ∧ (net.forward input).inputLayer.bias = net.inputLayer.bias
    ∧ (net.forward input).inputLayer.layerSize = net.inputLayer.layerSize
    ∧ (net.forward input).inputLayer.deltas = net.inputLayer.deltas
    ∧ (net.forward input).hiddenLayers.map Layer.weights
      = net.hiddenLayers.map Layer.weights
    ∧ (net.forward input).hiddenLayers.map Layer.bias
      = net.hiddenLayers.map Layer.bias
    ∧ (net.forward input).hiddenLayers.map Layer.layerSize
      = net.hiddenLayers.map Layer.layerSize
    ∧ (net.forward input).hiddenLayers.map Layer.deltas
      = net.hiddenLayers.map Layer.deltas
    ∧ (net.forward input).outputLayer.weights = net.outputLayer.weights
    ∧ (net.forward input).outputLayer.bias = net.outputLayer.bias
    ∧ (net.forward input).outputLayer.layerSize = net.outputLayer.layerSize
    ∧ (net.forward input).outputLayer.deltas = net.outputLayer.deltas := by
  refine ⟨predict_ok net input hin, rfl, rfl, rfl, rfl, rfl, rfl, ?_, ?_, ?_, ?_,
    rfl, rfl, rfl, rfl⟩
  · rw [forward_hiddenLayers]
    exact forwardHidden_map_frame Layer.weights (fun _ _ => rfl) net.hiddenLayers _
  · rw [forward_hiddenLayers]
    exact forwardHidden_map_frame Layer.bias (fun _ _ => rfl) net.hiddenLayers _
  · rw [forward_hiddenLayers]
    exact forwardHidden_map_frame Layer.layerSize (fun _ _ => rfl) net.hiddenLayers _
  · rw [forward_hiddenLayers]
    exact forwardHidden_map_frame Layer.deltas (fun _ _ => rfl) net.hiddenLayers _

/-- Witness for C9 at the concrete network `cNet` with input `[1]`. -/
theorem predict_output_copy_and_frame_witness :
    (([1] : List ℝ).length : ℤ) = cNet.inputLayer.layerSize
    ∧ (cNet.predict [1]
        = .ok (cNet.forward [1], (cNet.forward [1]).outputLayer.output)
      ∧ (cNet.forward [1]).learningRate = cNet.learningRate
      ∧ (cNet.forward [1]).totalError = cNet.totalError
      ∧ (cNet.forward [1]).inputLayer.weights = cNet.inputLayer.weights
      ∧ (cNet.forward [1]).inputLayer.bias = cNet.inputLayer.bias
      ∧ (cNet.forward [1]).inputLayer.layerSize = cNet.inputLayer.layerSize
      ∧ (cNet.forward [1]).inputLayer.deltas = cNet.inputLayer.deltas
      ∧ (cNet.forward [1]).hiddenLayers.map Layer.weights
        = cNet.hiddenLayers.map Layer.weights
      ∧ (cNet.forward [1]).hiddenLayers.map Layer.bias
        = cNet.hiddenLayers.map Layer.bias
      ∧ (cNet.forward [1]).hiddenLayers.map Layer.layerSize
        = cNet.hiddenLayers.map Layer.layerSize
      ∧ (cNet.forward [1]).hiddenLayers.map Layer.deltas
        = cNet.hiddenLayers.map Layer.deltas
      ∧ (cNet.forward [1]).outputLayer.weights = cNet.outputLayer.weights
      ∧ (cNet.forward [1]).outputLayer.bias = cNet.outputLayer.bias
      ∧ (cNet.forward [1]).outputLayer.layerSize = cNet.outputLayer.layerSize
      ∧ (cNet.forward [1]).outputLayer.deltas = cNet.outputLayer.deltas) := by
  have hin : (([1] : List ℝ).length : ℤ) = cNet.inputLayer.layerSize := by decide
  exact ⟨hin, predict_output_copy_and_frame cNet [1] hin⟩

theorem forward_output_length (net : NeuralNet) (input : List ℝ) :
    (net.forward input).outputLayer.output.length
      = net.outputLayer.layerSize.toNat := by
  rw [forward_outputLayer, runInput_output_length]

theorem forward_output_mem_sigmoid (net : NeuralNet) (input : List ℝ) (x : ℝ)
    (hx : x ∈ (net.forward input).outputLayer.output) : ∃ y, x = sigmoid y := by
  rw [forward_outputLayer] at hx
  simp only [runInput, List.mem_map, List.mem_range] at hx
  obtain ⟨i, _, hix⟩ := hx
  exact ⟨_, hix.symm⟩

/-- Claim C7: on a constructed network with a positive configured output
size, every valid `predict` call succeeds, its result has length exactly
`outputSize`, and every returned value lies strictly between `0` and `1`. -/
theorem predict_length_and_open_unit_range
    (iS oS : ℤ) (opt : Option NeuralNetOption) (rand : ℕ → ℕ → ℕ → ℝ)
    (net : NeuralNet) (input : List ℝ)
    (hmk : make iS oS opt rand = .ok net)
    (hoS : 0 < oS)
    (hin : (input.length : ℤ) = iS) :
    net.predict input
      = .ok (net.forward input, (net.forward input).outputLayer.output)
    ∧ (((net.forward input).outputLayer.output.length : ℤ)) = oS
    ∧ ∀ x ∈ (net.forward input).outputLayer.output, 0 < x ∧ x < 1 := by
  obtain ⟨hiS, hoSz⟩ := make_sizes iS oS opt rand net hmk
  refine ⟨predict_ok net input (by rw [hin, hiS]), ?_, ?_⟩
  · rw [forward_output_length, hoSz]
    exact Int.toNat_of_nonneg (le_of_lt hoS)
  · intro x hx
    obtain ⟨y, rfl⟩ := forward_output_mem_sigmoid net input x hx
    exact ⟨sigmoid_pos y, sigmoid_lt_one y⟩

/-- Witness for C7: the network constructed by `make 1 1 none r0` with
input `[0]`. -/
theorem predict_length_and_open_unit_range_witness :
    make 1 1 none r0 = .ok (getNet (make 1 1 none r0))
    ∧ (0 : ℤ) < 1
    ∧ (([0] : List ℝ).length : ℤ) = 1
    ∧ ((getNet (make 1 1 none r0)).predict [0]
        = .ok ((getNet (make 1 1 none r0)).forward [0],
            ((getNet (make 1 1 none r0)).forward [0]).outputLayer.output)
      ∧ ((((getNet (make 1 1 none r0)).forward [0]).outputLayer.output.length : ℤ)) = 1
      ∧ ∀ x ∈ ((getNet (make 1 1 none r0)).forward [0]).outputLayer.output,
          0 < x ∧ x < 1) := by
  have hmk : make 1 1 none r0 = .ok (getNet (make 1 1 none r0)) := rfl
  have hoS : (0 : ℤ) < 1 := by decide
  have hin : (([0] : List ℝ).length : ℤ) = 1 := by decide
  exact ⟨hmk, hoS, hin,
    predict_length_and_open_unit_range 1 1 none r0 (getNet (make 1 1 none r0)) [0]
      hmk hoS hin⟩

/-- Claim C4 (documented behavior vs. code): on any constructed network —
whatever value the documented `iterations` option carries, including none —
`learn` over a dimension-valid dataset performs exactly `2000` full passes,
calling `learnSingle` once per example in dataset order with no shuffling,
no batching and no early termination: the instrumented call trace is the
dataset repeated `2000` times, and the uninstrumented `learn` reaches the
same final network.  The iteration count is the source literal `2000`; the
configured `iterations` value is never consulted. -/
theorem learn_fixed_2000_passes_in_order
    (iS oS : ℤ) (opt : Option NeuralNetOption) (rand : ℕ → ℕ → ℕ → ℝ)
    (net : NeuralNet) (data : List Example)
    (hmk : make iS oS opt rand = .ok net)
    (hdim : ∀ ex ∈ data, (ex.input.length : ℤ) = iS) :
    learnT data net 2000
      = .ok (getNet (net.learn data), (List.replicate 2000 data).flatten)
    ∧ (net.learn data).isOk = true := by
  obtain ⟨hiS, _⟩ := make_sizes iS oS opt rand net hmk
  obtain ⟨n2, h1, h2, _⟩ := learnT_ok data iS
    (fun ex hex => hdim ex hex) 2000 net hiS
  have hl : net.learn data = .ok n2 := h2
  rw [hl]
  exact ⟨h1, rfl⟩

/-- Witness for C4: the network constructed with `iterations: 5000`
(`optIter`) still runs exactly `2000` passes over a one-example dataset. -/
theorem learn_fixed_2000_passes_in_order_witness :
    make 1 1 (some optIter) r0 = .ok (getNet (make 1 1 (some optIter) r0))
    ∧ (∀ ex ∈ [({ input := [0], output := [0] } : Example)],
        (ex.input.length : ℤ) = 1)
    ∧ (learnT [({ input := [0], output := [0] } : Example)]
          (getNet (make 1 1 (some optIter) r0)) 2000
        = .ok (getNet ((getNet (make 1 1 (some optIter) r0)).learn
              [({ input := [0], output := [0] } : Example)]),
            (List.replicate 2000
              [({ input := [0], output := [0] } : Example)]).flatten)
      ∧ ((getNet (make 1 1 (some optIter) r0)).learn
          [({ input := [0], output := [0] } : Example)]).isOk = true) := by
  have hmk : make 1 1 (some optIter) r0
      = .ok (getNet (make 1 1 (some optIter) r0)) := rfl
  have hdim : ∀ ex ∈ [({ input := [0], output := [0] } : Example)],
      (ex.input.length : ℤ) = 1 := by
    intro ex hex
    rw [List.mem_singleton] at hex
    subst hex
    rfl
  exact ⟨hmk, hdim,
    learn_fixed_2000_passes_in_order 1 1 (some optIter) r0
      (getNet (make 1 1 (some optIter) r0))
      [({ input := [0], output := [0] } : Example)] hmk hdim⟩

/-- Claim C5, counterexample: `learnSingle` does not raise an error when
the target length differs from the output size.  On the concrete network
`cNet` (output size `1`) a call with the empty target list succeeds. -/
theorem learnSingle_short_target_not_rejected :
    (([] : List ℝ).length : ℤ) ≠ cNet.outputLayer.layerSize
    ∧ (cNet.learnSingle [0] []).isOk = true := by
  constructor
  · decide
  · rfl

/-- Claim C5, amended: `predict` raises the dimension error exactly when
the input length differs from `inputLayer.layerSize`, and `learnSingle`
raises exactly in the same case (through its initial `predict` call, before
`totalError` is assigned or any weight is touched — on the error path the
call returns only the thrown message and no modified state).  The target
length is never validated, so a mismatched target raises nothing. -/
theorem dimension_error_exactly_on_input_mismatch
    (net : NeuralNet) (input target : List ℝ) :
    (net.predict input).isOk
      = decide ((input.length : ℤ) = net.inputLayer.layerSize)
    ∧ (net.learnSingle input target).isOk
      = decide ((input.length : ℤ) = net.inputLayer.layerSize)
    ∧ ((input.length : ℤ) ≠ net.inputLayer.layerSize →
        net.predict input = .error "Length of input array dose not match."
        ∧ net.learnSingle input target
          = .error "Length of input array dose not match.") := by
  by_cases h : (input.length : ℤ) = net.inputLayer.layerSize
  · rw [predict_ok net input h, learnSingle_eq net input target h]
    exact ⟨by simp [h, Except.isOk, Except.toBool],
      by simp [h, Except.isOk, Except.toBool], fun hcon => absurd h hcon⟩
  · have hp := predict_error net input h
    have hl : net.learnSingle input target
        = .error "Length of input array dose not match." := by
      rw [NeuralNet.learnSingle, hp]
    rw [hp, hl]
    exact ⟨by simp [h, Except.isOk, Except.toBool],
      by simp [h, Except.isOk, Except.toBool], fun _ => ⟨rfl, rfl⟩⟩

/-- Claim C6, counterexample: construction is required by the claim to
fail for a non-positive `inputSize`, yet `make 0 1` succeeds. -/
theorem make_accepts_nonpositive_input_size :
    ¬((0 : ℤ) > 0) ∧ (make 0 1 none r0).isOk = true := by
  constructor
  · decide
  · rfl

/-- Claim C6, amended: construction throws exactly when the resolved
hidden-layer size specification is neither a number nor an array; no
positivity check on `inputSize`, `outputSize` or the hidden sizes is
performed, no length check against the hidden-layer count is performed,
and a hidden-layer count of `0` is falsy and silently replaced by the
default `2`, so it never reaches the layer-construction loop. -/
theorem make_throws_exactly_on_bad_size_spec
    (iS oS : ℤ) (opt : Option NeuralNetOption) (rand : ℕ → ℕ → ℕ → ℝ) :
    (make iS oS opt rand).isOk = !(resolveHiddenSize opt iS).isOther
    ∧ 1 ≤ resolveHiddenNum opt := by
  constructor
  · cases hspec : resolveHiddenSize opt iS with
    | num n => rw [make, hspec]; rfl
    | arr l => rw [make, hspec]; rfl
    | other => rw [make, hspec]; rfl
  · rw [resolveHiddenNum]
    cases hopt : (opt.getD emptyOption).hiddenLayers with
    | none =>
      simp only [hopt, Option.getD_none, jsOrNat]
      cases hnum : (opt.getD emptyOption).hiddenLayerNum with
      | none => simp [jsOrNat]
      | some n =>
        by_cases hn0 : n = 0 <;> simp [jsOrNat, hn0] <;> omega
    | some hls =>
      simp only [hopt, Option.getD_some]
      cases hnum2 : hls.num with
      | none =>
        simp only [jsOrNat]
        cases hnum : (opt.getD emptyOption).hiddenLayerNum with
        | none => simp [jsOrNat]
        | some n =>
          by_cases hn0 : n = 0 <;> simp [jsOrNat, hn0] <;> omega
      | some n =>
        by_cases hn0 : n = 0
        · simp only [jsOrNat, hn0, if_pos rfl]
          cases hnum : (opt.getD emptyOption).hiddenLayerNum with
          | none => simp [jsOrNat]
          | some n2 =>
            by_cases hn20 : n2 = 0 <;> simp [jsOrNat, hn20] <;> omega
        · simp [jsOrNat, hn0]
          omega

/-- Claim C10: with the all-falsy option object `optFalsy` (learning rate
`0`, hidden-layer count `0`, absent bias list) construction succeeds
without any error and silently substitutes every default: the learning
rate becomes `0.5`, the network gets `2` hidden layers, and the bias of the
input layer and of every hidden layer is `0`. -/
theorem construction_replaces_falsy_with_defaults
    (iS oS : ℤ) (rand : ℕ → ℕ → ℕ → ℝ) :
    (make iS oS (some optFalsy) rand).isOk = true
    ∧ (getNet (make iS oS (some optFalsy) rand)).learningRate = 0.5
    ∧ (getNet (make iS oS (some optFalsy) rand)).hiddenLayers.length = 2
    ∧ (∀ L ∈ (getNet (make iS oS (some optFalsy) rand)).hiddenLayers, L.bias = 0)
    ∧ (getNet (make iS oS (some optFalsy) rand)).inputLayer.bias = 0 := by
  have hspec : resolveHiddenSize (some optFalsy) iS = SizeSpec.arr [iS, iS] := rfl
  have hnum : resolveHiddenNum (some optFalsy) = 2 := rfl
  refine ⟨?_, ?_, ?_, ?_, ?_⟩
  · rw [make, hspec]
    rfl
  · have h1 : (getNet (make iS oS (some optFalsy) rand)).learningRate
        = if (0 : ℝ) = 0 then (0.5 : ℝ) else 0 := rfl
    rw [h1, if_pos rfl]
  · simp only [make, hspec, hnum, getNet]
    simp [createRandomWeights]
  · intro L hL
    simp only [make, hspec, hnum, getNet] at hL
    simp only [List.mem_map, List.mem_range] at hL
    obtain ⟨i, hi, rfl⟩ := hL
    have hi2 : i < 2 := by simpa using hi
    simp [createRandomWeights, createLayer, List.getElem?_range hi2, optFalsy]
  · simp only [make, hspec, hnum, getNet]
    simp [createRandomWeights, createLayer, optFalsy]

end NeuralNetJs
